import Mathlib

/-!
Verification of the Bolagsverket annual-report extraction and risk-scoring
engine (`bolagsverket_mcp.py`) against its specification.

The Python source is shallowly embedded: dataclasses become structures,
`Optional[int]` / `Optional[float]` fields become `Option ℤ` / `Option ℚ`
(Python floats are idealised as exact rationals; every constant appearing in
the guards of this program, such as `0.5`, is exactly representable), and
Python truthiness of optional numbers is modelled explicitly.  Fallible code
returns `Option` or `Except`.
-/

namespace BolagsverketMCP

/-- Python truthiness of an `Optional[int]`: `None` and `0` are falsy. -/
def truthyInt (o : Option ℤ) : Bool :=
  match o with
  | none => false
  | some v => v != 0

/-- Python truthiness of an `Optional[float]`: `None` and `0.0` are falsy. -/
def truthyQ (o : Option ℚ) : Bool :=
  match o with
  | none => false
  | some v => v != 0

/-- Underlying value of an optional number; only used under a truthiness
guard, where the option is necessarily `some`. -/
def valInt (o : Option ℤ) : ℤ := o.getD 0

/-- Underlying value of an optional rational; only used under a truthiness
guard, where the option is necessarily `some`. -/
def valQ (o : Option ℚ) : ℚ := o.getD 0

/-- Round a rational to the nearest integer, ties to the even integer: the
behaviour of Python 3 `round` on an exact value. -/
def roundHalfEven (q : ℚ) : ℤ :=
  let n : ℤ := ⌊q⌋
  let r : ℚ := q - n
  if r < 1 / 2 then n
  else if 1 / 2 < r then n + 1
  else if n % 2 = 0 then n else n + 1

/-- Python `round(x, 2)` on an exact rational value. -/
def pyRound2 (q : ℚ) : ℚ := (roundHalfEven (q * 100) : ℚ) / 100

/-- The `Nyckeltal` dataclass: seven extracted metrics plus the two derived
ratios, all optional with `None` defaults. -/
structure Nyckeltal where
  nettoomsattning : Option ℤ := none
  resultat_efter_finansiella : Option ℤ := none
  arets_resultat : Option ℤ := none
  eget_kapital : Option ℤ := none
  balansomslutning : Option ℤ := none
  soliditet : Option ℚ := none
  antal_anstallda : Option ℤ := none
  vinstmarginal : Option ℚ := none
  roe : Option ℚ := none
  deriving Repr, DecidableEq

/-- The method `Nyckeltal.berakna_nyckeltal`, embedded as a state
transformer.  Source:

    if self.nettoomsattning and self.arets_resultat:
        self.vinstmarginal = round((self.arets_resultat / self.nettoomsattning) * 100, 2)
    if self.eget_kapital and self.arets_resultat and self.eget_kapital > 0:
        self.roe = round((self.arets_resultat / self.eget_kapital) * 100, 2)
-/
def Nyckeltal.berakna_nyckeltal (n : Nyckeltal) : Nyckeltal :=
  let vm : ℚ := pyRound2 ((valInt n.arets_resultat : ℚ) / (valInt n.nettoomsattning : ℚ) * 100)
  let n1 :=
    if truthyInt n.nettoomsattning && truthyInt n.arets_resultat then
      { n with vinstmarginal := some vm }
    else n
  let rv : ℚ := pyRound2 ((valInt n1.arets_resultat : ℚ) / (valInt n1.eget_kapital : ℚ) * 100)
  if truthyInt n1.eget_kapital && truthyInt n1.arets_resultat
      && decide (0 < valInt n1.eget_kapital) then
    { n1 with roe := some rv }
  else n1

theorem truthyInt_eq_true_iff (o : Option ℤ) :
    truthyInt o = true ↔ ∃ v, o = some v ∧ v ≠ 0 := by
  cases o <;> simp [truthyInt]

theorem truthyQ_eq_true_iff (o : Option ℚ) :
    truthyQ o = true ↔ ∃ v, o = some v ∧ v ≠ 0 := by
  cases o <;> simp [truthyQ]

/-- Closed form of `berakna_nyckeltal`: both guards only read the seven
extracted fields, which neither assignment modifies, so the two updates
commute into a single record update. -/
theorem berakna_eq (n : Nyckeltal) :
    n.berakna_nyckeltal =
      { n with
        vinstmarginal :=
          if truthyInt n.nettoomsattning && truthyInt n.arets_resultat then
            some (pyRound2 ((valInt n.arets_resultat : ℚ) / (valInt n.nettoomsattning : ℚ) * 100))
          else n.vinstmarginal,
        roe :=
          if truthyInt n.eget_kapital && truthyInt n.arets_resultat
              && decide (0 < valInt n.eget_kapital) then
            some (pyRound2 ((valInt n.arets_resultat : ℚ) / (valInt n.eget_kapital : ℚ) * 100))
          else n.roe } := by
  unfold Nyckeltal.berakna_nyckeltal
  by_cases hA : (truthyInt n.nettoomsattning && truthyInt n.arets_resultat) = true <;>
    by_cases hB : (truthyInt n.eget_kapital && truthyInt n.arets_resultat
        && decide (0 < valInt n.eget_kapital)) = true <;>
    simp [hA, hB]

/-- Claim C1 (amended): for a `Nyckeltal` record whose profit margin has not
yet been computed, running `berakna_nyckeltal` makes the profit margin
defined if and only if revenue is present and nonzero AND the net result is
present and nonzero; when defined it equals
`round(net_result / revenue * 100, 2)`. -/
theorem vinstmarginal_defined_iff (n : Nyckeltal) (h0 : n.vinstmarginal = none) :
    ((Nyckeltal.berakna_nyckeltal n).vinstmarginal ≠ none ↔
      (∃ r, n.nettoomsattning = some r ∧ r ≠ 0) ∧
      (∃ v, n.arets_resultat = some v ∧ v ≠ 0)) ∧
    (∀ r v, n.nettoomsattning = some r → n.arets_resultat = some v → r ≠ 0 → v ≠ 0 →
      (Nyckeltal.berakna_nyckeltal n).vinstmarginal =
        some (pyRound2 ((v : ℚ) / (r : ℚ) * 100))) := by
  rw [berakna_eq]
  constructor
  · by_cases hA : (truthyInt n.nettoomsattning && truthyInt n.arets_resultat) = true
    · have h := hA
      rw [Bool.and_eq_true, truthyInt_eq_true_iff, truthyInt_eq_true_iff] at h
      simp [hA, h]
    · have h := hA
      rw [Bool.and_eq_true] at h
      push_neg at h
      rw [Bool.not_eq_true] at *
      simp only [hA, Bool.false_eq_true, if_false, h0, ne_eq, not_true_eq_false, false_iff,
        not_and]
      intro ⟨r, hr, hr0⟩ ⟨v, hv, hv0⟩
      rcases Bool.and_eq_false_iff.mp hA with hc | hc
      · rw [← Bool.not_eq_true, truthyInt_eq_true_iff] at hc
        exact absurd ⟨r, hr, hr0⟩ hc
      · rw [← Bool.not_eq_true, truthyInt_eq_true_iff] at hc
        exact absurd ⟨v, hv, hv0⟩ hc
  · intro r v hr hv hr0 hv0
    have h1 : truthyInt (some r) = true := by simp [truthyInt, hr0]
    have h2 : truthyInt (some v) = true := by simp [truthyInt, hv0]
    simp [hr, hv, h1, h2, valInt]

/-- Witness for C1: revenue 1,000,000 and net result 50,000 give a defined
profit margin of exactly 5.0. -/
theorem vinstmarginal_defined_iff_witness :
    (Nyckeltal.berakna_nyckeltal
      { nettoomsattning := some 1000000, arets_resultat := some 50000 }).vinstmarginal
      = some 5 := by
  have h := (vinstmarginal_defined_iff
      { nettoomsattning := some 1000000, arets_resultat := some 50000 } rfl).2
      1000000 50000 rfl rfl (by norm_num) (by norm_num)
  rw [h]
  norm_num [pyRound2, roundHalfEven]

/-- Counterexample to Claim C1 as stated: revenue is present and nonzero,
yet the profit margin stays undefined because the net result is absent (the
source guard also requires a truthy net result). -/
theorem vinstmarginal_iff_counterexample :
    ({ nettoomsattning := some 1000000 } : Nyckeltal).nettoomsattning = some 1000000 ∧
    (1000000 : ℤ) ≠ 0 ∧
    (Nyckeltal.berakna_nyckeltal
      { nettoomsattning := some 1000000 } : Nyckeltal).vinstmarginal = none := by
  refine ⟨rfl, by norm_num, ?_⟩
  rw [berakna_eq]
  simp [truthyInt]

/-- Claim C2 (amended): for a `Nyckeltal` record whose ROE has not yet been
computed, running `berakna_nyckeltal` makes the ROE defined if and only if
equity is present and strictly positive AND the net result is present and
nonzero; when defined it equals `round(net_result / equity * 100, 2)`. -/
theorem roe_defined_iff (n : Nyckeltal) (h0 : n.roe = none) :
    ((Nyckeltal.berakna_nyckeltal n).roe ≠ none ↔
      (∃ e, n.eget_kapital = some e ∧ 0 < e) ∧
      (∃ v, n.arets_resultat = some v ∧ v ≠ 0)) ∧
    (∀ e v, n.eget_kapital = some e → n.arets_resultat = some v → 0 < e → v ≠ 0 →
      (Nyckeltal.berakna_nyckeltal n).roe =
        some (pyRound2 ((v : ℚ) / (e : ℚ) * 100))) := by
  rw [berakna_eq]
  have key : (truthyInt n.eget_kapital && truthyInt n.arets_resultat
      && decide (0 < valInt n.eget_kapital)) = true ↔
      (∃ e, n.eget_kapital = some e ∧ 0 < e) ∧
      (∃ v, n.arets_resultat = some v ∧ v ≠ 0) := by
    rw [Bool.and_eq_true, Bool.and_eq_true, truthyInt_eq_true_iff, truthyInt_eq_true_iff,
      decide_eq_true_eq]
    constructor
    · rintro ⟨⟨⟨e, he, he0⟩, hv⟩, hpos⟩
      rw [he] at hpos
      exact ⟨⟨e, he, by simpa [valInt] using hpos⟩, hv⟩
    · rintro ⟨⟨e, he, he0⟩, hv⟩
      exact ⟨⟨⟨e, he, by omega⟩, hv⟩, by simp [he, valInt, he0]⟩
  constructor
  · by_cases hB : (truthyInt n.eget_kapital && truthyInt n.arets_resultat
        && decide (0 < valInt n.eget_kapital)) = true
    · simp [hB, key.mp hB]
    · rw [← key]
      simp [hB, h0]
  · intro e v he hv he0 hv0
    have h1 : truthyInt (some e) = true := by simp [truthyInt]; omega
    have h2 : truthyInt (some v) = true := by simp [truthyInt, hv0]
    simp [he, hv, h1, h2, valInt, he0]

/-- Witness for C2: equity 2,000,000 and net result 200,000 give a defined
ROE of exactly 10.0. -/
theorem roe_defined_iff_witness :
    (Nyckeltal.berakna_nyckeltal
      { eget_kapital := some 2000000, arets_resultat := some 200000 }).roe
      = some 10 := by
  have h := (roe_defined_iff
      { eget_kapital := some 2000000, arets_resultat := some 200000 } rfl).2
      2000000 200000 rfl rfl (by norm_num) (by norm_num)
  rw [h]
  norm_num [pyRound2, roundHalfEven]

/-- Counterexample to Claim C2 as stated: equity is present and strictly
positive, yet the ROE stays undefined because the net result is absent (the
source guard also requires a truthy net result). -/
theorem roe_iff_counterexample :
    ({ eget_kapital := some 2000000 } : Nyckeltal).eget_kapital = some 2000000 ∧
    (0 : ℤ) < 2000000 ∧
    (Nyckeltal.berakna_nyckeltal { eget_kapital := some 2000000 } : Nyckeltal).roe = none := by
  refine ⟨rfl, by norm_num, ?_⟩
  rw [berakna_eq]
  simp [truthyInt]

/-- Claim C10: `berakna_nyckeltal` only assigns the two derived fields; the
seven extracted fields are unchanged by the call. -/
theorem berakna_nyckeltal_frame (n : Nyckeltal) :
    (Nyckeltal.berakna_nyckeltal n).nettoomsattning = n.nettoomsattning ∧
    (Nyckeltal.berakna_nyckeltal n).resultat_efter_finansiella = n.resultat_efter_finansiella ∧
    (Nyckeltal.berakna_nyckeltal n).arets_resultat = n.arets_resultat ∧
    (Nyckeltal.berakna_nyckeltal n).eget_kapital = n.eget_kapital ∧
    (Nyckeltal.berakna_nyckeltal n).balansomslutning = n.balansomslutning ∧
    (Nyckeltal.berakna_nyckeltal n).soliditet = n.soliditet ∧
    (Nyckeltal.berakna_nyckeltal n).antal_anstallda = n.antal_anstallda := by
  rw [berakna_eq]
  simp

/-- The `RiskLevel` enum of the risk classifier. -/
inductive RiskLevel where
  | CRITICAL
  | HIGH
  | MEDIUM
  | LOW
  | INFO
  deriving Repr, DecidableEq

/-- The `RiskFlag` dataclass.  The `value` and `recommendation` display
strings are presentation-only and carry no decision content, so they are not
modelled. -/
structure RiskFlag where
  level : RiskLevel
  category : String
  description : String
  deriving Repr, DecidableEq

/-- The slice of the `Arsredovisning` dataclass read by `analyze_risks`: its
`nyckeltal`, and `balansrakning['eget_kapital_skulder']['aktiekapital']`
(an optional extracted integer), modelled as a flat optional field. -/
structure Arsredovisning where
  nyckeltal : Nyckeltal
  aktiekapital : Option ℤ
  deriving Repr, DecidableEq

def flagNegativtEK : RiskFlag :=
  { level := .CRITICAL, category := "Kapitalstruktur", description := "Negativt eget kapital" }

def flagKBR : RiskFlag :=
  { level := .CRITICAL, category := "Kapitalstruktur",
    description := "Eget kapital understiger 50% av aktiekapitalet" }

def flagNegSoliditet : RiskFlag :=
  { level := .CRITICAL, category := "Finansiell styrka", description := "Negativ soliditet" }

def flagLagSoliditet : RiskFlag :=
  { level := .HIGH, category := "Finansiell styrka", description := "Låg soliditet (under 20%)" }

def flagForlust : RiskFlag :=
  { level := .HIGH, category := "Lönsamhet", description := "Förlust under räkenskapsåret" }

def flagNegVinstmarginal : RiskFlag :=
  { level := .HIGH, category := "Lönsamhet", description := "Kraftigt negativ vinstmarginal" }

def flagHogSkuldsattning : RiskFlag :=
  { level := .HIGH, category := "Skuldsättning",
    description := "Hög skuldsättningsgrad (över 3x)" }

def flagLagVinstmarginal : RiskFlag :=
  { level := .MEDIUM, category := "Lönsamhet", description := "Låg vinstmarginal (under 3%)" }

def flagMattligSoliditet : RiskFlag :=
  { level := .MEDIUM, category := "Finansiell styrka", description := "Måttlig soliditet (20-30%)" }

def flagIngaAnstallda : RiskFlag :=
  { level := .INFO, category := "Personal", description := "Inga anställda rapporterade" }

def flagFallandeOmsattning : RiskFlag :=
  { level := .HIGH, category := "Tillväxt", description := "Fallande omsättning (över 20%)" }

def flagSjunkandeOmsattning : RiskFlag :=
  { level := .MEDIUM, category := "Tillväxt", description := "Sjunkande omsättning (10-20%)" }

/-- The high-leverage rule of `analyze_risks`, reached when equity and total
assets are both truthy:

    skulder = nyckeltal.balansomslutning - nyckeltal.eget_kapital
    if nyckeltal.eget_kapital > 0:
        skuldsattningsgrad = skulder / nyckeltal.eget_kapital
        if skuldsattningsgrad > 3: ...
-/
def leverageFlags (n : Nyckeltal) : List RiskFlag :=
  let skulder : ℤ := valInt n.balansomslutning - valInt n.eget_kapital
  if 0 < valInt n.eget_kapital then
    if 3 < (skulder : ℚ) / (valInt n.eget_kapital : ℚ) then [flagHogSkuldsattning] else []
  else []

/-- The multi-year trend block of `analyze_risks`.  The overview dict is
keyed `period0..period3`; since these keys sort lexicographically exactly as
their indices sort numerically, the dict is modelled as an association list
over the period index.  Source:

    years = sorted(trends.keys())
    if len(years) >= 2:
        first_year = trends[years[-1]]
        last_year = trends[years[0]]
        if first_year.nettoomsattning and last_year.nettoomsattning:
            if first_year.nettoomsattning > 0:
                change = ((last_year.nettoomsattning - first_year.nettoomsattning)
                          / first_year.nettoomsattning) * 100
                if change < -20: ...High...
                elif change < -10: ...Medium...
-/
def trendFlags (trends : List (ℕ × Nyckeltal)) : List RiskFlag :=
  let years := (trends.map Prod.fst).mergeSort (· ≤ ·)
  if 2 ≤ years.length then
    match years.getLast?, years.head? with
    | some kOld, some kNew =>
      match trends.lookup kOld, trends.lookup kNew with
      | some first_year, some last_year =>
        if truthyInt first_year.nettoomsattning && truthyInt last_year.nettoomsattning then
          if 0 < valInt first_year.nettoomsattning then
            let change : ℚ :=
              ((valInt last_year.nettoomsattning : ℚ) - (valInt first_year.nettoomsattning : ℚ))
                / (valInt first_year.nettoomsattning : ℚ) * 100
            if change < -20 then [flagFallandeOmsattning]
            else if change < -10 then [flagSjunkandeOmsattning]
            else []
          else []
        else []
      | _, _ => []
    | _, _ => []
  else []

/-- The rule-based risk classifier `analyze_risks`, emitting flags by
sequential appends in the fixed source order.  Python truthiness guards on
optional numbers are made explicit; the float literal `0.5` is the exact
rational `1/2`. -/
def analyze_risks (ars : Arsredovisning) (trends : Option (List (ℕ × Nyckeltal))) :
    List RiskFlag :=
  let n := ars.nyckeltal
  (if truthyInt n.eget_kapital && decide (valInt n.eget_kapital < 0) then
    [flagNegativtEK] else []) ++
  (if truthyInt ars.aktiekapital && truthyInt n.eget_kapital then
    (if (valInt n.eget_kapital : ℚ) < (valInt ars.aktiekapital : ℚ) * (1 / 2) then
      [flagKBR] else [])
   else []) ++
  (if truthyQ n.soliditet && decide (valQ n.soliditet < 0) then
    [flagNegSoliditet] else []) ++
  (if truthyQ n.soliditet && decide (0 < valQ n.soliditet) && decide (valQ n.soliditet < 20) then
    [flagLagSoliditet] else []) ++
  (if truthyInt n.arets_resultat && decide (valInt n.arets_resultat < 0) then
    [flagForlust] else []) ++
  (if truthyQ n.vinstmarginal && decide (valQ n.vinstmarginal < -10) then
    [flagNegVinstmarginal] else []) ++
  (if truthyInt n.eget_kapital && truthyInt n.balansomslutning then
    leverageFlags n else []) ++
  (if truthyQ n.vinstmarginal && decide (0 < valQ n.vinstmarginal)
      && decide (valQ n.vinstmarginal < 3) then
    [flagLagVinstmarginal] else []) ++
  (if truthyQ n.soliditet && decide (20 ≤ valQ n.soliditet) && decide (valQ n.soliditet < 30) then
    [flagMattligSoliditet] else []) ++
  (if !truthyInt n.antal_anstallda then [flagIngaAnstallda] else []) ++
  (match trends with
   | some t => if t.isEmpty then [] else trendFlags t
   | none => [])

theorem filter_ite_nil (p : RiskFlag → Bool) (f : RiskFlag) (hp : p f = false)
    {c : Prop} [Decidable c] :
    List.filter p (if c then [f] else []) = [] := by
  split <;> simp [hp]

theorem filter_ite_keep (p : RiskFlag → Bool) (f : RiskFlag) (hp : p f = true)
    {c : Prop} [Decidable c] :
    List.filter p (if c then [f] else []) = if c then [f] else [] := by
  split <;> simp [hp]

theorem filter_ite_list (p : RiskFlag → Bool) (l : List RiskFlag) (hl : List.filter p l = [])
    {c : Prop} [Decidable c] :
    List.filter p (if c then l else []) = [] := by
  split <;> simp [hl]

theorem mem_leverageFlags (n : Nyckeltal) (f : RiskFlag) (hf : f ∈ leverageFlags n) :
    f = flagHogSkuldsattning := by
  simp only [leverageFlags] at hf
  repeat' split at hf
  all_goals simp_all

theorem mem_trendFlags (t : List (ℕ × Nyckeltal)) (f : RiskFlag) (hf : f ∈ trendFlags t) :
    f = flagFallandeOmsattning ∨ f = flagSjunkandeOmsattning := by
  simp only [trendFlags] at hf
  repeat' split at hf
  all_goals simp_all

theorem filter_trendFlags_nil (p : RiskFlag → Bool) (t : List (ℕ × Nyckeltal))
    (hp1 : p flagFallandeOmsattning = false) (hp2 : p flagSjunkandeOmsattning = false) :
    List.filter p (trendFlags t) = [] := by
  rw [List.filter_eq_nil_iff]
  intro f hf
  rcases mem_trendFlags t f hf with h | h <;> subst h <;> simp [hp1, hp2]

theorem filter_trendChunk_nil (p : RiskFlag → Bool)
    (trends : Option (List (ℕ × Nyckeltal)))
    (hp1 : p flagFallandeOmsattning = false) (hp2 : p flagSjunkandeOmsattning = false) :
    List.filter p
      (match trends with
       | some t => if t.isEmpty then [] else trendFlags t
       | none => []) = [] := by
  match trends with
  | none => rfl
  | some t =>
    simp only []
    split
    · rfl
    · exact filter_trendFlags_nil p t hp1 hp2

/-- Claim C4: when equity and total assets are both present and equity is
strictly positive, the high-leverage rule emits the High "Skuldsättning"
finding if and only if `(total assets - equity) / equity > 3`, strictly. -/
theorem leverage_rule_iff (ars : Arsredovisning) (trends : Option (List (ℕ × Nyckeltal)))
    (e b : ℤ) (he : ars.nyckeltal.eget_kapital = some e)
    (hb : ars.nyckeltal.balansomslutning = some b) (hpos : 0 < e) :
    List.filter (fun f => f.category == "Skuldsättning") (analyze_risks ars trends) =
      (if 3 < ((b : ℚ) - (e : ℚ)) / (e : ℚ) then [flagHogSkuldsattning] else []) := by
  have he0 : (e : ℚ) ≠ 0 := by positivity
  simp only [analyze_risks, List.filter_append]
  rw [filter_ite_nil _ flagNegativtEK (by decide),
    filter_ite_list _ _ (filter_ite_nil _ flagKBR (by decide)),
    filter_ite_nil _ flagNegSoliditet (by decide),
    filter_ite_nil _ flagLagSoliditet (by decide),
    filter_ite_nil _ flagForlust (by decide),
    filter_ite_nil _ flagNegVinstmarginal (by decide),
    filter_ite_nil _ flagLagVinstmarginal (by decide),
    filter_ite_nil _ flagMattligSoliditet (by decide),
    filter_ite_nil _ flagIngaAnstallda (by decide),
    filter_trendChunk_nil _ trends (by decide) (by decide)]
  simp only [List.nil_append, List.append_nil]
  by_cases hbz : b = 0
  · subst hbz
    have hzero : truthyInt ars.nyckeltal.balansomslutning = false := by
      rw [hb]; rfl
    rw [hzero, Bool.and_false, if_neg (by simp : ¬(false = true))]
    rw [if_neg]
    · rfl
    · rw [Int.cast_zero, zero_sub, neg_div, div_self he0]
      norm_num
  · have htr : (truthyInt ars.nyckeltal.eget_kapital
        && truthyInt ars.nyckeltal.balansomslutning) = true := by
      rw [Bool.and_eq_true, truthyInt_eq_true_iff, truthyInt_eq_true_iff]
      exact ⟨⟨e, he, by omega⟩, ⟨b, hb, hbz⟩⟩
    rw [if_pos htr]
    simp only [leverageFlags, he, hb, valInt, Option.getD_some]
    rw [if_pos hpos]
    have hcast : (((b - e : ℤ) : ℚ)) = (b : ℚ) - (e : ℚ) := by push_cast; ring
    rw [hcast, filter_ite_keep _ flagHogSkuldsattning (by decide)]

/-- Witness for C4: assets 5,000,000 and equity 1,000,000 give leverage 4.0
and fire the High finding; with assets 4,000,000 the ratio is exactly 3.0
and the rule does not fire. -/
theorem leverage_rule_iff_witness :
    List.filter (fun f => f.category == "Skuldsättning")
      (analyze_risks
        { nyckeltal := { eget_kapital := some 1000000, balansomslutning := some 5000000 },
          aktiekapital := none } none) = [flagHogSkuldsattning] ∧
    List.filter (fun f => f.category == "Skuldsättning")
      (analyze_risks
        { nyckeltal := { eget_kapital := some 1000000, balansomslutning := some 4000000 },
          aktiekapital := none } none) = [] := by
  constructor
  · rw [leverage_rule_iff _ none 1000000 5000000 rfl rfl (by norm_num)]
    rw [if_pos (by norm_num)]
  · rw [leverage_rule_iff _ none 1000000 4000000 rfl rfl (by norm_num)]
    rw [if_neg (by norm_num)]

theorem filter_leverageFlags_nil (p : RiskFlag → Bool) (n : Nyckeltal)
    (hp : p flagHogSkuldsattning = false) :
    List.filter p (leverageFlags n) = [] := by
  rw [List.filter_eq_nil_iff]
  intro f hf
  rw [mem_leverageFlags n f hf]
  simp [hp]

/-- Claim C5 (amended): when share capital and equity are both present, the
equity-erosion rule emits the Critical "Kapitalstruktur" finding if and only
if share capital is nonzero AND equity is nonzero AND
`equity < 0.5 * share capital` (the source guards both quantities with
Python truthiness before comparing). -/
theorem equity_erosion_iff (ars : Arsredovisning) (trends : Option (List (ℕ × Nyckeltal)))
    (a e : ℤ) (ha : ars.aktiekapital = some a) (he : ars.nyckeltal.eget_kapital = some e) :
    List.filter (fun f => f.description == "Eget kapital understiger 50% av aktiekapitalet")
      (analyze_risks ars trends) =
      (if a ≠ 0 ∧ e ≠ 0 ∧ (e : ℚ) < (a : ℚ) * (1 / 2) then [flagKBR] else []) := by
  simp only [analyze_risks, List.filter_append]
  rw [filter_ite_nil _ flagNegativtEK (by decide),
    filter_ite_nil _ flagNegSoliditet (by decide),
    filter_ite_nil _ flagLagSoliditet (by decide),
    filter_ite_nil _ flagForlust (by decide),
    filter_ite_nil _ flagNegVinstmarginal (by decide),
    filter_ite_list _ _ (filter_leverageFlags_nil _ ars.nyckeltal (by decide)),
    filter_ite_nil _ flagLagVinstmarginal (by decide),
    filter_ite_nil _ flagMattligSoliditet (by decide),
    filter_ite_nil _ flagIngaAnstallda (by decide),
    filter_trendChunk_nil _ trends (by decide) (by decide)]
  simp only [List.nil_append, List.append_nil]
  rw [ha, he]
  by_cases h1 : a = 0
  · subst h1
    rw [show truthyInt (some (0 : ℤ)) = false from rfl, Bool.false_and,
      if_neg (by simp : ¬(false = true)), if_neg (by simp)]
    rfl
  · by_cases h2 : e = 0
    · subst h2
      rw [show truthyInt (some (0 : ℤ)) = false from rfl, Bool.and_false,
        if_neg (by simp : ¬(false = true)), if_neg (by simp)]
      rfl
    · have hc : (truthyInt (some a) && truthyInt (some e)) = true := by
        simp [truthyInt, h1, h2]
      rw [if_pos hc, filter_ite_keep _ flagKBR (by decide)]
      simp only [valInt, Option.getD_some, ne_eq, h1, h2, not_false_eq_true, true_and]

/-- Witness for C5: share capital 100,000 with equity 25,000 satisfies
`25,000 < 50,000` and fires the Critical equity-erosion finding. -/
theorem equity_erosion_iff_witness :
    List.filter (fun f => f.description == "Eget kapital understiger 50% av aktiekapitalet")
      (analyze_risks
        { nyckeltal := { eget_kapital := some 25000 }, aktiekapital := some 100000 } none)
      = [flagKBR] := by
  rw [equity_erosion_iff _ none 100000 25000 rfl rfl]
  rw [if_pos ⟨by norm_num, by norm_num, by norm_num⟩]

/-- Counterexample to Claim C5 as stated: share capital is known (100,000)
and equity is present (0), and `0 < 0.5 * 100,000`, yet no equity-erosion
finding is emitted because the source treats the zero equity as falsy and
skips the rule. -/
theorem equity_erosion_counterexample :
    ((0 : ℚ) < (100000 : ℚ) * (1 / 2)) ∧
    List.filter (fun f => f.description == "Eget kapital understiger 50% av aktiekapitalet")
      (analyze_risks
        { nyckeltal := { eget_kapital := some 0 }, aktiekapital := some 100000 } none)
      = [] := by
  constructor
  · norm_num
  · decide

theorem sorted_head?_le (l : List ℕ) (hs : List.Sorted (· ≤ ·) l) (a : ℕ)
    (ha : l.head? = some a) : ∀ x ∈ l, a ≤ x := by
  cases l with
  | nil => simp at ha
  | cons b t =>
    rw [List.head?_cons, Option.some.injEq] at ha
    subst ha
    rw [List.sorted_cons] at hs
    intro x hx
    rcases List.mem_cons.mp hx with h | h
    · omega
    · exact hs.1 x h

theorem sorted_le_getLast? : ∀ l : List ℕ, List.Sorted (· ≤ ·) l →
    ∀ m, l.getLast? = some m → ∀ x ∈ l, x ≤ m := by
  intro l
  induction l with
  | nil => intro _ m hm; simp at hm
  | cons b t ih =>
    intro hs m hm x hx
    rw [List.sorted_cons] at hs
    cases t with
    | nil =>
      simp at hm hx
      omega
    | cons c s =>
      rw [List.getLast?_cons_cons] at hm
      obtain ⟨hne, heq⟩ := List.mem_getLast?_eq_getLast (Option.mem_def.mpr hm)
      have hmmem : m ∈ c :: s := heq ▸ List.getLast_mem hne
      rcases List.mem_cons.mp hx with h | h
      · subst h
        exact hs.1 m hmmem
      · exact ih hs.2 m hm x h

theorem mergeSort_sorted (l : List ℕ) :
    List.Sorted (· ≤ ·) (l.mergeSort (· ≤ ·)) := by
  have htrans : ∀ a b c : ℕ, (decide (a ≤ b)) = true → (decide (b ≤ c)) = true →
      (decide (a ≤ c)) = true := by
    intro a b c hab hbc
    simp only [decide_eq_true_eq] at *
    omega
  have htotal : ∀ a b : ℕ, ((decide (a ≤ b)) || (decide (b ≤ a))) = true := by
    intro a b
    simp only [Bool.or_eq_true, decide_eq_true_eq]
    omega
  have h := @List.sorted_mergeSort ℕ (fun a b => decide (a ≤ b)) htrans htotal l
  simp only [decide_eq_true_eq] at h
  exact h

theorem mergeSort_head?_eq (l : List ℕ) (m : ℕ) (hm : m ∈ l) (hmin : ∀ k ∈ l, m ≤ k) :
    (l.mergeSort (· ≤ ·)).head? = some m := by
  have hperm := List.mergeSort_perm l (· ≤ ·)
  have hs := mergeSort_sorted l
  cases hseq : l.mergeSort (· ≤ ·) with
  | nil =>
    rw [hseq, List.nil_perm] at hperm
    subst hperm
    simp at hm
  | cons a t =>
    rw [hseq] at hperm hs
    have ham : a ∈ l := hperm.mem_iff.mp (List.mem_cons_self a t)
    have hms : m ∈ a :: t := hperm.mem_iff.mpr hm
    have h1 : a ≤ m := sorted_head?_le (a :: t) hs a rfl m hms
    have h2 : m ≤ a := hmin a ham
    rw [List.head?_cons, Option.some.injEq]
    omega

theorem mergeSort_getLast?_eq (l : List ℕ) (m : ℕ) (hm : m ∈ l) (hmax : ∀ k ∈ l, k ≤ m) :
    (l.mergeSort (· ≤ ·)).getLast? = some m := by
  have hperm := List.mergeSort_perm l (· ≤ ·)
  have hs := mergeSort_sorted l
  cases hseq : l.mergeSort (· ≤ ·) with
  | nil =>
    rw [hseq, List.nil_perm] at hperm
    subst hperm
    simp at hm
  | cons a t =>
    rw [hseq] at hperm hs
    have hne : (a :: t) ≠ [] := List.cons_ne_nil a t
    have hg : (a :: t).getLast? = some ((a :: t).getLast hne) :=
      List.getLast?_eq_getLast _ hne
    have hgl : (a :: t).getLast hne ∈ l := hperm.mem_iff.mp (List.getLast_mem hne)
    have hms : m ∈ a :: t := hperm.mem_iff.mpr hm
    have h1 : (a :: t).getLast hne ≤ m := hmax _ hgl
    have h2 : m ≤ (a :: t).getLast hne := sorted_le_getLast? (a :: t) hs _ hg m hms
    rw [hg, Option.some.injEq]
    omega

/-- Characterisation of the trend block: with the minimal key (the newest
period) and the maximal key (the oldest period) identified, the block
reduces to the revenue-decline decision tree of the source. -/
theorem trendFlags_eq (t : List (ℕ × Nyckeltal)) (kNew kOld : ℕ) (newest oldest : Nyckeltal)
    (h2 : 2 ≤ t.length)
    (hNewMem : kNew ∈ t.map Prod.fst) (hNewMin : ∀ k ∈ t.map Prod.fst, kNew ≤ k)
    (hOldMem : kOld ∈ t.map Prod.fst) (hOldMax : ∀ k ∈ t.map Prod.fst, k ≤ kOld)
    (hlNew : t.lookup kNew = some newest) (hlOld : t.lookup kOld = some oldest) :
    trendFlags t =
      (if truthyInt oldest.nettoomsattning && truthyInt newest.nettoomsattning then
        if 0 < valInt oldest.nettoomsattning then
          if ((valInt newest.nettoomsattning : ℚ) - (valInt oldest.nettoomsattning : ℚ))
              / (valInt oldest.nettoomsattning : ℚ) * 100 < -20 then [flagFallandeOmsattning]
          else if ((valInt newest.nettoomsattning : ℚ) - (valInt oldest.nettoomsattning : ℚ))
              / (valInt oldest.nettoomsattning : ℚ) * 100 < -10 then [flagSjunkandeOmsattning]
          else []
        else []
      else []) := by
  have hh := mergeSort_head?_eq (t.map Prod.fst) kNew hNewMem hNewMin
  have hg := mergeSort_getLast?_eq (t.map Prod.fst) kOld hOldMem hOldMax
  have hlen : ((t.map Prod.fst).mergeSort (· ≤ ·)).length = t.length := by
    rw [(List.mergeSort_perm (t.map Prod.fst) _).length_eq, List.length_map]
  simp only [trendFlags, hlen, hh, hg, hlNew, hlOld, h2, if_true]

/-- Claim C3 (amended): for a multi-year overview with at least two retained
periods, the classifier compares the newest retained period (lowest index,
index 0 whenever it is retained) against the oldest retained period (highest
index); the percentage change `(newest - oldest) / oldest * 100` decides the
findings only when the oldest revenue is strictly positive AND the newest
revenue is nonzero (Python truthiness); then exactly one growth finding is
emitted: High when change < -20, Medium when -20 <= change < -10, and none
when change >= -10.  A zero newest revenue emits no growth finding even
though the change would be -100%. -/
theorem growth_rule (ars : Arsredovisning) (t : List (ℕ × Nyckeltal))
    (kNew kOld : ℕ) (newest oldest : Nyckeltal) (nrev orev : ℤ)
    (h2 : 2 ≤ t.length)
    (hNewMem : kNew ∈ t.map Prod.fst) (hNewMin : ∀ k ∈ t.map Prod.fst, kNew ≤ k)
    (hOldMem : kOld ∈ t.map Prod.fst) (hOldMax : ∀ k ∈ t.map Prod.fst, k ≤ kOld)
    (hlNew : t.lookup kNew = some newest) (hlOld : t.lookup kOld = some oldest)
    (hnrev : newest.nettoomsattning = some nrev) (horev : oldest.nettoomsattning = some orev) :
    List.filter (fun f => f.category == "Tillväxt") (analyze_risks ars (some t)) =
      (if 0 < orev ∧ nrev ≠ 0 then
        (if ((nrev : ℚ) - (orev : ℚ)) / (orev : ℚ) * 100 < -20 then [flagFallandeOmsattning]
         else if ((nrev : ℚ) - (orev : ℚ)) / (orev : ℚ) * 100 < -10 then
           [flagSjunkandeOmsattning]
         else [])
      else []) := by
  simp only [analyze_risks, List.filter_append]
  rw [filter_ite_nil _ flagNegativtEK (by decide),
    filter_ite_list _ _ (filter_ite_nil _ flagKBR (by decide)),
    filter_ite_nil _ flagNegSoliditet (by decide),
    filter_ite_nil _ flagLagSoliditet (by decide),
    filter_ite_nil _ flagForlust (by decide),
    filter_ite_nil _ flagNegVinstmarginal (by decide),
    filter_ite_list _ _ (filter_leverageFlags_nil _ ars.nyckeltal (by decide)),
    filter_ite_nil _ flagLagVinstmarginal (by decide),
    filter_ite_nil _ flagMattligSoliditet (by decide),
    filter_ite_nil _ flagIngaAnstallda (by decide)]
  simp only [List.nil_append]
  have hne : t.isEmpty = false := by
    cases t with
    | nil => simp at h2
    | cons a s => rfl
  rw [hne]
  simp only [Bool.false_eq_true, if_false]
  rw [trendFlags_eq t kNew kOld newest oldest h2 hNewMem hNewMin hOldMem hOldMax hlNew hlOld,
    hnrev, horev]
  simp only [truthyInt, valInt, Option.getD_some]
  by_cases ho : 0 < orev
  · by_cases hn : nrev = 0
    · subst hn
      simp
    · have hcond : ((orev != 0) && (nrev != 0)) = true := by
        simp only [Bool.and_eq_true, bne_iff_ne, ne_eq]
        exact ⟨by omega, hn⟩
      have hRHS : 0 < orev ∧ nrev ≠ 0 := ⟨ho, hn⟩
      rw [if_pos hcond, if_pos ho, if_pos hRHS]
      split
      · rfl
      · split
        · rfl
        · rfl
  · have hRHS : ¬(0 < orev ∧ nrev ≠ 0) := fun hc => ho hc.1
    rw [if_neg hRHS]
    by_cases hcond : ((orev != 0) && (nrev != 0)) = true
    · rw [if_pos hcond, if_neg ho]
      rfl
    · rw [if_neg hcond]
      rfl

/-- Witness for C3: newest revenue 700,000 (period 0) against oldest revenue
1,000,000 (period 3) gives change -30% and the single High growth finding. -/
theorem growth_rule_witness :
    List.filter (fun f => f.category == "Tillväxt")
      (analyze_risks { nyckeltal := {}, aktiekapital := none }
        (some [(0, { nettoomsattning := some 700000 }),
               (3, { nettoomsattning := some 1000000 })]))
      = [flagFallandeOmsattning] := by
  rw [growth_rule _ _ 0 3 { nettoomsattning := some 700000 }
    { nettoomsattning := some 1000000 } 700000 1000000
    (by norm_num) (by decide) (by decide) (by decide) (by decide)
    (by decide) (by decide) rfl rfl]
  rw [if_pos ⟨by norm_num, by norm_num⟩, if_pos (by norm_num)]

/-- Counterexample to Claim C3 as stated: the oldest retained revenue is
1,000,000 (strictly positive) and the newest is 0, so the stated change is
-100% (< -20) and the claim demands a High growth finding; the source guard
treats the zero newest revenue as falsy and emits no growth finding. -/
theorem growth_rule_counterexample :
    (((0 : ℚ) - 1000000) / 1000000 * 100 < -20) ∧ ((0 : ℤ) < 1000000) ∧
    List.filter (fun f => f.category == "Tillväxt")
      (analyze_risks { nyckeltal := {}, aktiekapital := none }
        (some [(0, { nettoomsattning := some 0 }),
               (1, { nettoomsattning := some 1000000 })]))
      = [] := by
  refine ⟨by norm_num, by norm_num, ?_⟩
  simp only [analyze_risks, List.filter_append]
  rw [filter_ite_nil _ flagNegativtEK (by decide),
    filter_ite_list _ _ (filter_ite_nil _ flagKBR (by decide)),
    filter_ite_nil _ flagNegSoliditet (by decide),
    filter_ite_nil _ flagLagSoliditet (by decide),
    filter_ite_nil _ flagForlust (by decide),
    filter_ite_nil _ flagNegVinstmarginal (by decide),
    filter_ite_list _ _ (filter_leverageFlags_nil _ _ (by decide)),
    filter_ite_nil _ flagLagVinstmarginal (by decide),
    filter_ite_nil _ flagMattligSoliditet (by decide),
    filter_ite_nil _ flagIngaAnstallda (by decide)]
  simp only [List.nil_append]
  rw [show ([(0, ({ nettoomsattning := some 0 } : Nyckeltal)),
      (1, ({ nettoomsattning := some 1000000 } : Nyckeltal))].isEmpty) = false from rfl]
  simp only [Bool.false_eq_true, if_false]
  rw [trendFlags_eq _ 0 1 { nettoomsattning := some 0 } { nettoomsattning := some 1000000 }
    (by norm_num) (by decide) (by decide) (by decide) (by decide) (by decide) (by decide)]
  norm_num [truthyInt]

/-- `clean_org_nummer`: `org_nummer.replace("-", "").replace(" ", "")`.
Replacing every occurrence of a single character by the empty string is
exactly a character filter, applied first for `'-'` and then for `' '`. -/
def clean_org_nummer (s : String) : String :=
  ⟨(s.toList.filter (fun c => c ≠ '-')).filter (fun c => c ≠ ' ')⟩

/-- `format_org_nummer`: canonical display form, inserting a hyphen six
characters into the cleaned identifier when it is exactly 10 long. -/
def format_org_nummer (s : String) : String :=
  let clean := clean_org_nummer s
  if clean.toList.length = 10 then
    ⟨clean.toList.take 6⟩ ++ "-" ++ ⟨clean.toList.drop 6⟩
  else clean

theorem clean_toList (s : String) :
    (clean_org_nummer s).toList =
      (s.toList.filter (fun c => c ≠ '-')).filter (fun c => c ≠ ' ') := rfl

theorem clean_mem_not_hyphen (s : String) :
    ∀ c ∈ (clean_org_nummer s).toList, (decide (c ≠ '-')) = true := by
  intro c hc
  rw [clean_toList] at hc
  exact (List.mem_filter.mp (List.mem_filter.mp hc).1).2

theorem clean_mem_not_space (s : String) :
    ∀ c ∈ (clean_org_nummer s).toList, (decide (c ≠ ' ')) = true := by
  intro c hc
  rw [clean_toList] at hc
  exact (List.mem_filter.mp hc).2

theorem clean_data (s : String) :
    (clean_org_nummer s).data =
      (s.toList.filter (fun c => c ≠ '-')).filter (fun c => c ≠ ' ') := rfl

theorem clean_format_eq (s : String) (h10 : (clean_org_nummer s).toList.length = 10) :
    clean_org_nummer (format_org_nummer s) = clean_org_nummer s := by
  unfold format_org_nummer
  rw [if_pos h10]
  apply String.ext
  have hlist : ((⟨(clean_org_nummer s).toList.take 6⟩ ++ "-"
      ++ ⟨(clean_org_nummer s).toList.drop 6⟩ : String)).toList =
      (clean_org_nummer s).toList.take 6 ++ '-' :: (clean_org_nummer s).toList.drop 6 := by
    show (_ ++ "-" ++ (⟨_⟩ : String)).data = _
    simp [String.data_append]
  have hf1take : ((clean_org_nummer s).toList.take 6).filter (fun c => c ≠ '-') =
      (clean_org_nummer s).toList.take 6 :=
    List.filter_eq_self.mpr (fun c hc => clean_mem_not_hyphen s c (List.mem_of_mem_take hc))
  have hf1drop : ((clean_org_nummer s).toList.drop 6).filter (fun c => c ≠ '-') =
      (clean_org_nummer s).toList.drop 6 :=
    List.filter_eq_self.mpr (fun c hc => clean_mem_not_hyphen s c (List.mem_of_mem_drop hc))
  have hf2 : ((clean_org_nummer s).toList.take 6 ++ (clean_org_nummer s).toList.drop 6).filter
      (fun c => c ≠ ' ')
      = (clean_org_nummer s).toList.take 6 ++ (clean_org_nummer s).toList.drop 6 := by
    refine List.filter_eq_self.mpr (fun c hc => ?_)
    rcases List.mem_append.mp hc with h | h
    · exact clean_mem_not_space s c (List.mem_of_mem_take h)
    · exact clean_mem_not_space s c (List.mem_of_mem_drop h)
  rw [clean_data, clean_data, hlist, List.filter_append, List.filter_cons]
  rw [if_neg (by simp : ¬((fun c => decide (c ≠ '-')) '-' = true))]
  rw [hf1take, hf1drop, hf2, List.take_append_drop]
  exact (clean_toList s)

/-- Claim C9: for every identifier that cleans to exactly 10 digits,
canonicalisation is idempotent:
`format_org_nummer (format_org_nummer x) = format_org_nummer x`. -/
theorem format_org_nummer_idem (s : String)
    (h10 : (clean_org_nummer s).toList.length = 10)
    (hdig : ∀ c ∈ (clean_org_nummer s).toList, c.isDigit) :
    format_org_nummer (format_org_nummer s) = format_org_nummer s := by
  have hclean := clean_format_eq s h10
  conv_lhs => rw [format_org_nummer]
  rw [hclean, if_pos h10]
  rw [format_org_nummer]
  rw [if_pos h10]

/-- Witness for C9: the identifier `"5560160680"` cleans to 10 digits, and
formatting it twice gives the same `"556016-0680"` as formatting it once. -/
theorem format_org_nummer_idem_witness :
    format_org_nummer (format_org_nummer "5560160680") = format_org_nummer "5560160680" :=
  format_org_nummer_idem "5560160680" (by decide) (by decide)

/-- Python `str.isdigit` restricted to ASCII digits: false on the empty
string, true only when every character is a digit. -/
def pyIsdigit (s : String) : Bool :=
  !s.toList.isEmpty && s.toList.all (fun c => c.isDigit)

/-- `validate_org_nummer`: returns `(ok, cleaned-or-message)`. -/
def validate_org_nummer (org_nummer : String) : Bool × String :=
  let clean := clean_org_nummer org_nummer
  if !(pyIsdigit clean) then
    (false, "Organisationsnummer får endast innehålla siffror")
  else if ¬(clean.toList.length = 10 ∨ clean.toList.length = 12) then
    (false, "Organisationsnummer måste vara 10 eller 12 siffror")
  else
    (true, clean)

/-- An entry of the `/dokumentlista` response. -/
structure Dok where
  dokumentId : String
  deriving Repr, DecidableEq

/-- The `ErrorCode` enum. -/
inductive ErrorCode where
  | COMPANY_NOT_FOUND
  | ANNUAL_REPORT_NOT_FOUND
  | API_ERROR
  | AUTH_ERROR
  | PARSE_ERROR
  | INVALID_INPUT
  | EXPORT_ERROR
  deriving Repr, DecidableEq

/-- Outcome of one MCP tool call: either a successful report (carrying the
selected document; the rendering of the report is presentation-only) or a
structured error response built by `handle_error`. -/
inductive ToolResult where
  | success (payload : Dok)
  | error (code : ErrorCode) (message : String)
  deriving Repr, DecidableEq

/-- `fetch_and_parse_arsredovisning`, given the already-fetched document
list (the network call and iXBRL parsing are the external collaborator of
the spec and are modelled as returning the selected document).  Raising an
exception is modelled as `Except.error` carrying the message. -/
def fetch_and_parse_arsredovisning (dokument : List Dok) (index : ℕ) : Except String Dok :=
  if dokument.isEmpty then
    Except.error ("Inga årsredovisningar hittades")
  else if dokument.length ≤ index then
    Except.error ("Index " ++ toString index ++ " finns inte. Det finns "
      ++ toString dokument.length ++ " årsredovisningar.")
  else
    Except.ok (dokument.getD index { dokumentId := "" })

/-- The `bolagsverket_get_nyckeltal` tool: validates the identifier, fetches
and parses the requested filing, and maps any raised exception to an
`ANNUAL_REPORT_NOT_FOUND` error response. -/
def bolagsverket_get_nyckeltal (org_nummer : String) (dokument : List Dok) (index : ℕ) :
    ToolResult :=
  let v := validate_org_nummer org_nummer
  if !v.1 then ToolResult.error ErrorCode.INVALID_INPUT v.2
  else
    match fetch_and_parse_arsredovisning dokument index with
    | Except.ok d => ToolResult.success d
    | Except.error e => ToolResult.error ErrorCode.ANNUAL_REPORT_NOT_FOUND e

/-- The `bolagsverket_export` tool: validates the identifier, fetches and
parses the requested filing (the per-format rendering that follows shares
the single `try`/`except`), and maps any raised exception to an
`EXPORT_ERROR` error response. -/
def bolagsverket_export (org_nummer : String) (dokument : List Dok) (index : ℕ) :
    ToolResult :=
  let v := validate_org_nummer org_nummer
  if !v.1 then ToolResult.error ErrorCode.INVALID_INPUT v.2
  else
    match fetch_and_parse_arsredovisning dokument index with
    | Except.ok d => ToolResult.success d
    | Except.error e => ToolResult.error ErrorCode.EXPORT_ERROR e

/-- The error code of a tool result, `none` on success. -/
def errCode : ToolResult → Option ErrorCode
  | ToolResult.success _ => none
  | ToolResult.error c _ => some c

/-- Claim C8 (amended): for a valid identifier and a requested filing index
at or beyond the document count, retrieval through `bolagsverket_get_nyckeltal`
fails with `ANNUAL_REPORT_NOT_FOUND` (never an empty success), while the
same failure through `bolagsverket_export` is reported as the generic
`EXPORT_ERROR`. -/
theorem filing_not_found (org : String) (dokument : List Dok) (index : ℕ)
    (hvalid : (validate_org_nummer org).1 = true) (hidx : dokument.length ≤ index) :
    errCode (bolagsverket_get_nyckeltal org dokument index)
      = some ErrorCode.ANNUAL_REPORT_NOT_FOUND ∧
    errCode (bolagsverket_export org dokument index) = some ErrorCode.EXPORT_ERROR := by
  have hfetch : ∃ e, fetch_and_parse_arsredovisning dokument index = Except.error e := by
    unfold fetch_and_parse_arsredovisning
    by_cases he : dokument.isEmpty = true
    · rw [if_pos he]
      exact ⟨_, rfl⟩
    · rw [if_neg he, if_pos hidx]
      exact ⟨_, rfl⟩
  obtain ⟨e, he⟩ := hfetch
  simp only [bolagsverket_get_nyckeltal, bolagsverket_export, hvalid, Bool.not_true,
    Bool.false_eq_true, if_false, he]
  exact ⟨rfl, rfl⟩

/-- Witness for C8: a valid identifier with one available filing and
requested index 5 produces the two error codes. -/
theorem filing_not_found_witness :
    errCode (bolagsverket_get_nyckeltal "5560160680" [{ dokumentId := "doc-1" }] 5)
      = some ErrorCode.ANNUAL_REPORT_NOT_FOUND ∧
    errCode (bolagsverket_export "5560160680" [{ dokumentId := "doc-1" }] 5)
      = some ErrorCode.EXPORT_ERROR :=
  filing_not_found "5560160680" [{ dokumentId := "doc-1" }] 5 (by decide) (by decide)

/-- Counterexample to Claim C8 as stated: with one available filing and
requested index 1, report retrieval through the export tool fails with the
generic `EXPORT_ERROR`, not `ANNUAL_REPORT_NOT_FOUND`. -/
theorem filing_error_code_counterexample :
    ([({ dokumentId := "doc-1" } : Dok)] : List Dok).length ≤ 1 ∧
    errCode (bolagsverket_export "5560160680" [{ dokumentId := "doc-1" }] 1)
      = some ErrorCode.EXPORT_ERROR ∧
    ErrorCode.EXPORT_ERROR ≠ ErrorCode.ANNUAL_REPORT_NOT_FOUND := by
  refine ⟨by decide, ?_, by decide⟩
  decide

/-- Leading-match test: does `p` occur at the very start of `s`? -/
def matchesAt : List Char → List Char → Bool
  | [], _ => true
  | _ :: _, [] => false
  | a :: ps, b :: ss => a == b && matchesAt ps ss

/-- Substring occurrence on character lists. -/
def hasSubList (p : List Char) : List Char → Bool
  | [] => p.isEmpty
  | c :: rest => matchesAt p (c :: rest) || hasSubList p rest

/-- Python `pat in s` on strings. -/
def containsSub (pat s : String) : Bool := hasSubList pat.toList s.toList

/-- The whitespace characters stripped by Python `str.strip()` (ASCII
range; `Char.ofNat 11` and `12` are vertical tab and form feed). -/
def isPyWhitespace (c : Char) : Bool :=
  c == ' ' || c == '\t' || c == '\n' || c == '\r' || c == Char.ofNat 11 || c == Char.ofNat 12

/-- Python `str.strip()`. -/
def pyStrip (s : String) : String :=
  ⟨((s.toList.dropWhile isPyWhitespace).reverse.dropWhile isPyWhitespace).reverse⟩

/-- An `ix:nonnumeric` tag of the parsed document: its `name` attribute,
its text content, and its optional `tupleref` attribute. -/
structure NNTag where
  nameAttr : Option String
  text : String
  tupleref : Option String
  deriving Repr, DecidableEq

/-- The tag-name predicate `lambda x: x and pat in x`: the attribute must be
present, truthy (nonempty) and contain the pattern (case-sensitive in
`get_personer`). -/
def nameMatches (pat : String) (t : NNTag) : Bool :=
  match t.nameAttr with
  | none => false
  | some s => !(s == "") && containsSub pat s

/-- `soup.find_all('ix:nonnumeric', {'name': ...})`: document-order linear
scan. -/
def findAllByName (doc : List NNTag) (pat : String) : List NNTag :=
  doc.filter (nameMatches pat)

/-- `soup.find('ix:nonnumeric', {'name': ..., 'tupleref': tuple_ref})`:
first tag whose name matches and whose `tupleref` equals the reference. -/
def findByNameTupleref (doc : List NNTag) (pat : String) (tref : String) : Option NNTag :=
  doc.find? (fun t => nameMatches pat t && t.tupleref == some tref)

/-- The `Person` dataclass; `datum` stays `None` throughout `get_personer`. -/
structure Person where
  fornamn : String
  efternamn : String
  roll : String
  datum : Option String := none
  deriving Repr, DecidableEq

/-- One extraction-pattern triple of `get_personer`. -/
structure SignPattern where
  fornamn_pat : String
  efternamn_pat : String
  roll_pat : Option String
  deriving Repr, DecidableEq

/-- The three extraction-pattern groups of `get_personer`, in source order. -/
def patterns : List SignPattern :=
  [{ fornamn_pat := "UnderskriftFaststallelseintygForetradareTilltalsnamn",
     efternamn_pat := "UnderskriftFaststallelseintygForetradareEfternamn",
     roll_pat := some ("UnderskriftFaststallelseintygForetradareForetradarroll") },
   { fornamn_pat := "UnderskriftHandlingTilltalsnamn",
     efternamn_pat := "UnderskriftHandlingEfternamn",
     roll_pat := none },
   { fornamn_pat := "UnderskriftRevisionsberattelseRevisorTilltalsnamn",
     efternamn_pat := "UnderskriftRevisionsberattelseRevisorEfternamn",
     roll_pat := some ("UnderskriftRevisionsberattelseRevisorTitel") }]

/-- The role fallback of `get_personer` when no role fact was joined. -/
def defaultRoll (fornamn_pat : String) : String :=
  if containsSub ("Revisor") fornamn_pat then "Revisor"
  else if containsSub ("Foretradar") fornamn_pat then "Företrädare"
  else "Styrelseledamot"

/-- Build one `Person` from a first-name tag: join the last-name and role
tags through the shared (truthy) `tupleref`, then apply the role default. -/
def mkPerson (doc : List NNTag) (p : SignPattern) (tag : NNTag) : Person :=
  let fornamn := pyStrip tag.text
  let er : String × String :=
    match tag.tupleref with
    | none => ("", "")
    | some tref =>
      if tref == "" then ("", "")
      else
        let efternamn :=
          match findByNameTupleref doc p.efternamn_pat tref with
          | some t => pyStrip t.text
          | none => ""
        let roll :=
          match p.roll_pat with
          | some rp =>
            (match findByNameTupleref doc rp tref with
             | some t => pyStrip t.text
             | none => "")
          | none => ""
        (efternamn, roll)
  let roll := if er.2 == "" then defaultRoll p.fornamn_pat else er.2
  { fornamn := fornamn, efternamn := er.1, roll := roll }

/-- The deduplication key of `get_personer`. -/
def personKey (p : Person) : String × String × String := (p.fornamn, p.efternamn, p.roll)

/-- The guarded append of `get_personer`:
`if key not in seen and fornamn: seen.add(key); personer.append(...)`. -/
def addPerson (st : List (String × String × String) × List Person) (per : Person) :
    List (String × String × String) × List Person :=
  if personKey per ∉ st.1 ∧ per.fornamn ≠ "" then
    (personKey per :: st.1, st.2 ++ [per])
  else st

/-- The inner loop of `get_personer` over the first-name tags of one
pattern group. -/
def processPattern (doc : List NNTag) (p : SignPattern)
    (st : List (String × String × String) × List Person) :
    List (String × String × String) × List Person :=
  (findAllByName doc p.fornamn_pat).foldl (fun st tag => addPerson st (mkPerson doc p tag)) st

/-- `IXBRLParser.get_personer`: run all three pattern groups over an empty
seen-set and person list, return the person list. -/
def get_personer (doc : List NNTag) : List Person :=
  (patterns.foldl (fun st p => processPattern doc p st) ([], [])).2

/-- Loop invariant: every emitted person's key is recorded in the seen set,
and the emitted keys are pairwise distinct. -/
def goodState (st : List (String × String × String) × List Person) : Prop :=
  (∀ q ∈ st.2, personKey q ∈ st.1) ∧ (st.2.map personKey).Nodup

theorem addPerson_good (st : List (String × String × String) × List Person) (per : Person)
    (h : goodState st) : goodState (addPerson st per) := by
  unfold addPerson
  split
  · next hc =>
    constructor
    · intro q hq
      rcases List.mem_append.mp hq with hq | hq
      · exact List.mem_cons_of_mem _ (h.1 q hq)
      · rw [List.mem_singleton.mp hq]
        exact List.mem_cons_self _ _
    · rw [List.map_append, List.nodup_append]
      refine ⟨h.2, List.nodup_singleton _, ?_⟩
      intro k hk hk1
      rw [List.map_singleton, List.mem_singleton] at hk1
      subst hk1
      obtain ⟨q, hq, hqk⟩ := List.mem_map.mp hk
      exact hc.1 (hqk ▸ h.1 q hq)
  · exact h

theorem foldl_addPerson_good (doc : List NNTag) (p : SignPattern) :
    ∀ (tags : List NNTag) (st : List (String × String × String) × List Person),
      goodState st →
      goodState (tags.foldl (fun st tag => addPerson st (mkPerson doc p tag)) st) := by
  intro tags
  induction tags with
  | nil => intro st h; exact h
  | cons a l ih =>
    intro st h
    exact ih _ (addPerson_good st (mkPerson doc p a) h)

theorem foldl_patterns_good (doc : List NNTag) :
    ∀ (ps : List SignPattern) (st : List (String × String × String) × List Person),
      goodState st → goodState (ps.foldl (fun st p => processPattern doc p st) st) := by
  intro ps
  induction ps with
  | nil => intro st h; exact h
  | cons a l ih =>
    intro st h
    exact ih _ (foldl_addPerson_good doc a _ st h)

/-- Claim C7: in the person list produced by `get_personer`, no two entries
share the same (first name, last name, role) triple — identical triples from
different extraction patterns collapse to one `Person`. -/
theorem get_personer_nodup (doc : List NNTag) :
    ((get_personer doc).map personKey).Nodup := by
  have h := foldl_patterns_good doc patterns ([], []) ⟨by simp, by simp⟩
  exact h.2

/-- The exceptions that can escape the numeric branch of `_get_value`:
`ValueError` (caught by its `except` clause) and `OverflowError` (not
caught). -/
inductive PyExc where
  | valueError
  | overflowError
  deriving Repr, DecidableEq

/-- A Python float classified by the cases that matter to `int(...)`:
a finite value (idealised as an exact rational), the two infinities, and
NaN. -/
inductive PyFloat where
  | finite (q : ℚ)
  | inf
  | negInf
  | nan
  deriving Repr, DecidableEq

/-- A maximal run of ASCII digits with single underscores between digits —
the digit-group grammar shared by Python `float` and `int` literals.
`vdgAux` continues a group whose previous character was a digit. -/
def vdgAux : List Char → Bool
  | [] => true
  | ['_'] => false
  | '_' :: d :: rest => d.isDigit && vdgAux (d :: rest)
  | c :: rest => c.isDigit && vdgAux rest

def validDigitGroup : List Char → Bool
  | [] => false
  | d :: rest => d.isDigit && vdgAux rest

/-- Numeric value of a digit group, skipping grouping underscores. -/
def digitsVal (cs : List Char) : ℕ :=
  cs.foldl (fun acc c => if c == '_' then acc else acc * 10 + (c.toNat - '0'.toNat)) 0

/-- Number of actual digits in a digit group. -/
def digitCount (cs : List Char) : ℕ := (cs.filter (fun c => c != '_')).length

/-- Split at the first occurrence of `c`: the part before it, and the part
after it when it occurs. -/
def splitAtChar (c : Char) : List Char → List Char × Option (List Char)
  | [] => ([], none)
  | a :: rest =>
    if a == c then ([], some rest)
    else
      let r := splitAtChar c rest
      (a :: r.1, r.2)

/-- Mantissa of a Python float literal: `digits`, `digits.`, `.digits` or
`digits.digits` (each digit run a valid digit group). -/
def parseMantissa (cs : List Char) : Option ℚ :=
  let r := splitAtChar '.' cs
  match r.2 with
  | none => if validDigitGroup r.1 then some ((digitsVal r.1 : ℚ)) else none
  | some fp =>
    if r.1.isEmpty && fp.isEmpty then none
    else if (r.1.isEmpty || validDigitGroup r.1) && (fp.isEmpty || validDigitGroup fp) then
      some ((digitsVal r.1 : ℚ) + (digitsVal fp : ℚ) / (10 : ℚ) ^ (digitCount fp))
    else none

/-- Exponent of a Python float literal: optionally signed digit group. -/
def parseExpPart (cs : List Char) : Option ℤ :=
  match cs with
  | '+' :: rest => if validDigitGroup rest then some ((digitsVal rest : ℤ)) else none
  | '-' :: rest => if validDigitGroup rest then some (-(digitsVal rest : ℤ)) else none
  | rest => if validDigitGroup rest then some ((digitsVal rest : ℤ)) else none

/-- Finite decimal literal, with optional exponent after `e`. -/
def parseDecimalQ (cs : List Char) : Option ℚ :=
  let r := splitAtChar 'e' cs
  match r.2 with
  | none => parseMantissa r.1
  | some ex =>
    match parseMantissa r.1, parseExpPart ex with
    | some m, some e => some (m * (10 : ℚ) ^ e)
    | _, _ => none

/-- Unsigned body of `float(str)` after sign removal: the special values
`inf`/`infinity`/`nan` (already lowercased) or a finite decimal literal. -/
def parseUnsignedFloat (cs : List Char) (neg : Bool) : Option PyFloat :=
  if cs = ['i', 'n', 'f'] ∨ cs = ['i', 'n', 'f', 'i', 'n', 'i', 't', 'y'] then
    some (if neg then PyFloat.negInf else PyFloat.inf)
  else if cs = ['n', 'a', 'n'] then some PyFloat.nan
  else
    match parseDecimalQ cs with
    | some q => some (PyFloat.finite (if neg then -q else q))
    | none => none

/-- Python `float(str)` on a character list: strip surrounding whitespace,
lowercase (`float` is case-insensitive), read an optional sign, then the
unsigned body.  ASCII-digit model of the CPython grammar; `none` models a
raised `ValueError`. -/
def pyParseFloatList (l : List Char) : Option PyFloat :=
  let cs := (((l.dropWhile isPyWhitespace).reverse.dropWhile isPyWhitespace).reverse).map
    Char.toLower
  match cs with
  | '+' :: rest => parseUnsignedFloat rest false
  | '-' :: rest => parseUnsignedFloat rest true
  | rest => parseUnsignedFloat rest false

/-- Python `int(str)` (base 10) for the `scale` attribute; `none` models a
raised `ValueError`. -/
def pyIntParse (s : String) : Option ℤ :=
  let cs := (pyStrip s).toList
  match cs with
  | '+' :: rest => if validDigitGroup rest then some ((digitsVal rest : ℤ)) else none
  | '-' :: rest => if validDigitGroup rest then some (-(digitsVal rest : ℤ)) else none
  | rest => if validDigitGroup rest then some ((digitsVal rest : ℤ)) else none

/-- Python `int(x)` truncation of a finite float value: toward zero, which
on a reduced fraction is the truncating division of numerator by
denominator. -/
def truncQ (q : ℚ) : ℤ := q.num.tdiv (q.den : ℤ)

/-- The separator normalisation of the numeric branch of `_get_value`:
`value.replace(' ', '').replace(',', '.').replace('−', '-')` applied to the
stripped tag text.  Each pattern is a single character, so the replaces are
a character filter and two character maps. -/
def normalizeNumeric (text : String) : List Char :=
  (((pyStrip text).toList.filter (fun c => c ≠ ' ')).map
      (fun c => if c == ',' then '.' else c)).map
    (fun c => if c == '−' then '-' else c)

/-- The numeric branch of `IXBRLParser._get_value` applied to a found tag,
given the tag's text and its `scale` attribute (defaulted to `"0"` by the
caller):

    value = tag.text.strip()
    value = value.replace(' ', '').replace(',', '.').replace('−', '-')
    try:
        scale = int(tag.get('scale', '0'))
        return int(float(value) * (10 ** scale))
    except ValueError:
        return None

`Except.ok` is a normal return (`none` = Python `None`); `Except.error`
is an exception escaping the method: the `except` clause catches exactly
`ValueError`, so an `OverflowError` raised by `int()` on an infinite value
propagates. -/
def numericFactValue (text scaleAttr : String) : Except PyExc (Option ℤ) :=
  let value := normalizeNumeric text
  match pyIntParse scaleAttr with
  | none => Except.ok none
  | some scale =>
    match pyParseFloatList value with
    | none => Except.ok none
    | some f =>
      let conv : Except PyExc ℤ :=
        match f with
        | PyFloat.finite q => Except.ok (truncQ (q * (10 : ℚ) ^ scale))
        | PyFloat.inf => Except.error PyExc.overflowError
        | PyFloat.negInf => Except.error PyExc.overflowError
        | PyFloat.nan => Except.error PyExc.valueError
      match conv with
      | Except.ok v => Except.ok (some v)
      | Except.error PyExc.valueError => Except.ok none
      | Except.error PyExc.overflowError => Except.error PyExc.overflowError

theorem numericFactValue_parse_fail (text scaleAttr : String)
    (h : pyParseFloatList (normalizeNumeric text) = none) :
    numericFactValue text scaleAttr = Except.ok none := by
  unfold numericFactValue
  simp only [h]
  split <;> rfl

/-- Claim C6: numeric fact retrieval is NOT total.  A tag text that does not
parse as a float indeed resolves to `None` (the `except ValueError` clause),
and so does `"nan"` (whose `int()` conversion raises `ValueError`), but the
tag text `"inf"` parses as an infinite float and `int(float('inf'))` raises
an `OverflowError`, which the `except ValueError` clause does not catch: the
query raises instead of returning `None`. -/
theorem numeric_fact_overflow :
    numericFactValue "inf" "0" = Except.error PyExc.overflowError ∧
    numericFactValue "abc" "0" = Except.ok none ∧
    numericFactValue "nan" "0" = Except.ok none := by
  refine ⟨?_, ?_, ?_⟩ <;> rfl

end BolagsverketMCP

